import Mathlib

/-!
Verification development for the soil-health-checker repository.

The definitions below are a shallow embedding, translated from
`src/app/api/analyze/route.ts` (the analyze API route together with the
client-side soil-analysis library bundled in the same file).  JavaScript
numbers are idealised as exact rationals (`ℚ`) extended with `NaN` and the
infinities (`JsNum`); JavaScript strings are Lean `String`s and are
manipulated through their underlying character lists; JavaScript objects
built by successive `obj[key] = v` assignments are association lists with
insert-or-overwrite semantics (`setKey`/`getKey`).  Effectful code
(`runPythonModel`, the `POST` handler) is embedded by passing the outcome
of each external effect (process events, file reads) as an explicit
argument.  `Math.random()` streams are modelled as explicit functions
`ℕ → ℚ` together with a threaded draw counter.
-/

abbrev Chars := List Char

/-- The whitespace characters stripped by JavaScript `String.prototype.trim`
(restricted to the ASCII range, which is all this codebase produces). -/
def isJsSpace (c : Char) : Bool :=
  c == ' ' || c == '\t' || c == '\n' || c == '\r' || c.toNat == 11 || c.toNat == 12

/-- JavaScript `String.prototype.trim` on character lists. -/
def jsTrim (l : Chars) : Chars :=
  ((l.dropWhile isJsSpace).reverse.dropWhile isJsSpace).reverse

/-- A JavaScript number: `NaN`, a signed infinity, or a finite value
idealised as an exact rational. -/
inductive JsNum where
  | nan : JsNum
  | inf (neg : Bool) : JsNum
  | val (q : ℚ) : JsNum
deriving DecidableEq, Repr

/-- JavaScript truthiness of a number: `NaN` and `0` are falsy. -/
def JsNum.truthy : JsNum → Bool
  | .nan => false
  | .inf _ => true
  | .val q => q != 0

def digitVal (c : Char) : Nat := c.toNat - 48

def digitsToNat (l : Chars) : Nat :=
  l.foldl (fun n c => n * 10 + digitVal c) 0

def isHexDigit (c : Char) : Bool :=
  c.isDigit || (97 ≤ c.toNat && c.toNat ≤ 102) || (65 ≤ c.toNat && c.toNat ≤ 70)

def hexDigitVal (c : Char) : Nat :=
  if c.isDigit then c.toNat - 48
  else if 97 ≤ c.toNat then c.toNat - 87
  else c.toNat - 55

def hexToNat (l : Chars) : Nat :=
  l.foldl (fun n c => n * 16 + hexDigitVal c) 0

def isOctDigit (c : Char) : Bool := 48 ≤ c.toNat && c.toNat ≤ 55

def octToNat (l : Chars) : Nat :=
  l.foldl (fun n c => n * 8 + (c.toNat - 48)) 0

def isBinDigit (c : Char) : Bool := c == '0' || c == '1'

def binToNat (l : Chars) : Nat :=
  l.foldl (fun n c => n * 2 + (c.toNat - 48)) 0

/-- The exact rational value of a signed decimal literal with integer
mantissa `m`, `f` digits after the decimal point, and decimal exponent
`e`: `±m × 10^(e−f)`.  Built with `mkRat` and machine-level `Int`/`Nat`
arithmetic so that it evaluates by kernel reduction. -/
def decValue (neg : Bool) (m f : ℕ) (e : ℤ) : ℚ :=
  let n : ℤ := if neg then -(m : ℤ) else (m : ℤ)
  if (f : ℤ) ≤ e then mkRat (n * 10 ^ (e - (f : ℤ)).toNat) 1
  else mkRat n (10 ^ ((f : ℤ) - e).toNat)

/-- Parse an exponent part that must consume the whole input:
`[+-]? Digits`. -/
def parseExpTail (l : Chars) : Option Int :=
  let signVal : Int × Chars :=
    match l with
    | '+' :: r => (1, r)
    | '-' :: r => (-1, r)
    | _ => (1, l)
  let ds := signVal.2.takeWhile Char.isDigit
  if ds.isEmpty then none
  else if (signVal.2.drop ds.length).isEmpty then
    some (signVal.1 * (digitsToNat ds : Int))
  else none

/-- Parse an optional exponent (`ExponentPart?` at end of literal):
empty input means exponent `0`; otherwise requires `e`/`E` then a full
exponent tail. -/
def parseExpOpt (l : Chars) : Option Int :=
  match l with
  | [] => some 0
  | 'e' :: r => parseExpTail r
  | 'E' :: r => parseExpTail r
  | _ => none

/-- Parse an unsigned decimal literal that must consume the whole input:
`Digits . Digits? Exp? | . Digits Exp? | Digits Exp?`.  Returns the
mantissa digits' value, the number of digits after the point, and the
exponent. -/
def parseDecLit (l : Chars) : Option (ℕ × ℕ × ℤ) :=
  let ds := l.takeWhile Char.isDigit
  let rest := l.drop ds.length
  match rest with
  | [] => if ds.isEmpty then none else some (digitsToNat ds, 0, 0)
  | '.' :: rest2 =>
    let fs := rest2.takeWhile Char.isDigit
    let rest3 := rest2.drop fs.length
    if ds.isEmpty && fs.isEmpty then none
    else
      (parseExpOpt rest3).map
        (fun e => (digitsToNat ds * 10 ^ fs.length + digitsToNat fs, fs.length, e))
  | _ =>
    if ds.isEmpty then none
    else (parseExpOpt rest).map (fun e => (digitsToNat ds, 0, e))

/-- Decimal part of `ToNumber` after the optional sign, including the
`Infinity` keyword. -/
def jsDecNumber (sgnNeg : Bool) (l : Chars) : JsNum :=
  if l = "Infinity".data then .inf sgnNeg
  else
    match parseDecLit l with
    | some p => .val (decValue sgnNeg p.1 p.2.1 p.2.2)
    | none => .nan

/-- A radix literal `pref…` with digit predicate `dig` and accumulated
value `conv`: the remainder must be a nonempty run of base digits. -/
def jsRadixNumber (dig : Char → Bool) (conv : Chars → Nat) (rest : Chars) : JsNum :=
  if rest.isEmpty then .nan
  else if rest.all dig then .val (mkRat (conv rest : ℤ) 1)
  else .nan

/-- JavaScript `Number(string)` (the `ToNumber` coercion on strings):
trims whitespace, maps the empty string to `0`, accepts signed decimal
literals, `Infinity`, and unsigned `0x`/`0o`/`0b` radix literals;
everything else is `NaN`.  Finite values are exact rationals. -/
def jsToNumber (s : Chars) : JsNum :=
  let t := jsTrim s
  if t.isEmpty then .val 0
  else
    match t with
    | '0' :: c :: rest =>
      if c == 'x' || c == 'X' then jsRadixNumber isHexDigit hexToNat rest
      else if c == 'o' || c == 'O' then jsRadixNumber isOctDigit octToNat rest
      else if c == 'b' || c == 'B' then jsRadixNumber isBinDigit binToNat rest
      else jsDecNumber false t
    | '+' :: r => jsDecNumber false r
    | '-' :: r => jsDecNumber true r
    | _ => jsDecNumber false t

/-- JavaScript `Number.parseFloat` applied to a string already known to
consist of digits and periods (the only shape produced by the extractor's
`[\d.]+` captures): parses the longest decimal-literal prefix, `NaN` when
there is none. -/
def parseFloatDigits (l : Chars) : JsNum :=
  let ds := l.takeWhile Char.isDigit
  if ds.isEmpty then
    match l with
    | '.' :: rest =>
      let fs := rest.takeWhile Char.isDigit
      if fs.isEmpty then .nan else .val (decValue false (digitsToNat fs) fs.length 0)
    | _ => .nan
  else
    match l.drop ds.length with
    | '.' :: rest2 =>
      let fs := rest2.takeWhile Char.isDigit
      .val (decValue false (digitsToNat ds * 10 ^ fs.length + digitsToNat fs) fs.length 0)
    | _ => .val (decValue false (digitsToNat ds) 0 0)

/-- A JavaScript value stored in a row object: a string, a (non-`NaN`)
number, or `undefined`. -/
inductive CellValue where
  | str (s : String) : CellValue
  | num (n : JsNum) : CellValue
  | undef : CellValue
deriving DecidableEq, Repr

/-- `obj[k]` on an association-list object: `none` models `undefined`
(absent key). -/
def getKey {α : Type} (k : String) : List (String × α) → Option α
  | [] => none
  | (k', v) :: rest => if k' = k then some v else getKey k rest

/-- `obj[k] = v` on an association-list object: overwrite in place, or
append a fresh key. -/
def setKey {α : Type} (k : String) (v : α) : List (String × α) → List (String × α)
  | [] => [(k, v)]
  | (k', v') :: rest => if k' = k then (k', v) :: rest else (k', v') :: setKey k v rest

/-- A parsed CSV row / prediction record: a JavaScript object keyed by
column name. -/
abbrev Row := List (String × CellValue)

/-- The cell coercion in `parseCSV`:
`row[header] = isNaN(Number(value)) ? value : Number(value)`, where
`value` is `undefined` when the row has fewer fields than the header. -/
def coerceCell (v : Option String) : CellValue :=
  match v with
  | none => .undef
  | some s =>
    match jsToNumber s.data with
    | .nan => .str s
    | n => .num n

/-- One iteration of `headers.forEach((header, index) => ...)` in
`parseCSV`, building the row object. -/
def parseRow (headers : List String) (values : List String) : Row :=
  (headers.enum).foldl (fun row p => setKey p.2 (coerceCell values[p.1]?) row) []

/-- `csvData.trim().split("\n")` — the line list consumed by `parseCSV`. -/
def csvLines (csvData : String) : List Chars :=
  (jsTrim csvData.data).splitOn '\n'

/-- `lines[0].split(",")` — the header names of `parseCSV`'s input. -/
def csvHeaders (csvData : String) : List String :=
  (((csvLines csvData).headD []).splitOn ',').map (fun c => String.mk c)

/-- The comma-split cells of each data line (`lines.slice(1)`). -/
def csvDataCells (csvData : String) : List (List String) :=
  ((csvLines csvData).drop 1).map (fun l => (l.splitOn ',').map (fun c => String.mk c))

/-- `parseCSV` from `route.ts`: trim, split into lines, read the header
from the first line, and turn every remaining line into a row object with
numeric-looking cells coerced to numbers. -/
def parseCSV (csvData : String) : List Row :=
  (csvDataCells csvData).map (fun values => parseRow (csvHeaders csvData) values)

/-- Fuel-driven split of a character list on a (nonempty) multi-character
separator, as JavaScript `String.prototype.split` with a string argument. -/
def splitSeqAux (sep : Chars) : Nat → Chars → Chars → List Chars
  | 0, rest, acc => [acc.reverse ++ rest]
  | fuel + 1, l, acc =>
    match l with
    | [] => [acc.reverse]
    | c :: cs =>
      if sep.isPrefixOf (c :: cs) then
        acc.reverse :: splitSeqAux sep fuel ((c :: cs).drop sep.length) []
      else
        splitSeqAux sep fuel cs (c :: acc)

def splitSeq (sep l : Chars) : List Chars :=
  splitSeqAux sep (l.length + 1) l []

/-- Index of the first occurrence of `pat` in `l`, scanning left to right. -/
def findSubstrAux (pat : Chars) : Nat → Chars → Nat → Option Nat
  | 0, _, _ => none
  | fuel + 1, l, i =>
    if pat.isPrefixOf l then some i
    else
      match l with
      | [] => none
      | _ :: cs => findSubstrAux pat fuel cs (i + 1)

def findSubstr (pat l : Chars) : Option Nat :=
  findSubstrAux pat (l.length + 1) l 0

/-- The suffix following the first occurrence of `pat` in `l`, when any. -/
def findAfterAux (pat : Chars) : Nat → Chars → Option Chars
  | 0, _ => none
  | fuel + 1, l =>
    if pat.isPrefixOf l then some (l.drop pat.length)
    else
      match l with
      | [] => none
      | _ :: cs => findAfterAux pat fuel cs

def findAfter (pat l : Chars) : Option Chars :=
  findAfterAux pat (l.length + 1) l

/-- JavaScript `String.prototype.replace` with a (nonempty) string pattern:
replace the first occurrence only, identity when absent. -/
def replaceFirstAux (pat repl : Chars) : Nat → Chars → Chars
  | 0, l => l
  | fuel + 1, l =>
    if pat.isPrefixOf l then repl ++ l.drop pat.length
    else
      match l with
      | [] => []
      | c :: cs => c :: replaceFirstAux pat repl fuel cs

def replaceFirstSeq (pat repl l : Chars) : Chars :=
  replaceFirstAux pat repl (l.length + 1) l

def isDigitDot (c : Char) : Bool := c.isDigit || c == '.'

/-- Search for a regex of the shape `pat([cls]+)` (literal text followed by
a nonempty greedy character-class capture): at each start position the
literal must match and be followed by at least one class character;
otherwise the scan advances one character, exactly as the regex engine
retries at the next start position. -/
def findCapAux (pat : Chars) (good : Char → Bool) : Nat → Chars → Option Chars
  | 0, _ => none
  | fuel + 1, l =>
    if pat.isPrefixOf l && ((l.drop pat.length).takeWhile good != []) then
      some ((l.drop pat.length).takeWhile good)
    else
      match l with
      | [] => none
      | _ :: cs => findCapAux pat good fuel cs

def findCap (pat : Chars) (good : Char → Bool) (l : Chars) : Option Chars :=
  findCapAux pat good (l.length + 1) l

/-- The structured metrics record assembled by `extractModelMetrics`. -/
structure ModelMetrics where
  r2Scores : List (String × JsNum)
  rmseScores : List (String × JsNum)
  mseScores : List (String × JsNum)
  bestModels : List (String × String)
  bestFeatures : List (String × List String)
deriving DecidableEq, Repr

def emptyMetrics : ModelMetrics := ⟨[], [], [], [], []⟩

/-- The lazily-captured text of the first `=== Final Summary ===` section:
everything after the marker up to (excluding) the first subsequent
`\n\nGenerating predictions`, or to the end of the text
(`/=== Final Summary ===([\s\S]*?)(?=\n\nGenerating predictions|$)/`). -/
def finalSummaryText (output : Chars) : Option Chars :=
  match findAfter "=== Final Summary ===".data output with
  | none => none
  | some rest =>
    match findSubstr "\n\nGenerating predictions".data rest with
    | none => some rest
    | some j => some (rest.take j)

/-- `summaryText.split("\nTarget:").slice(1)` — the per-target blocks the
extractor iterates over; empty when the summary marker is absent. -/
def summaryBlocks (output : Chars) : List Chars :=
  match finalSummaryText output with
  | none => []
  | some s => (splitSeq "\nTarget:".data s).drop 1

/-- A character matched by the JavaScript regex `.` without the `s` flag:
any character except the line terminators `\n`, `\r`, U+2028 and U+2029. -/
def isDotChar (c : Char) : Bool :=
  !(c == '\n' || c == '\r' || c.toNat == 0x2028 || c.toNat == 0x2029)

/-- `block.match(/^(.*?)\n/)` then `.trim()`: the lazy capture grows only
through `.`-matchable characters, so the anchored match succeeds exactly
when the maximal run of such characters from the start of the block is
followed by `\n`; a block whose first line terminator is `\r` (or that
has none) is skipped (`none`). -/
def blockTarget (b : Chars) : Option String :=
  match b.drop (b.takeWhile isDotChar).length with
  | '\n' :: _ => some (String.mk (jsTrim (b.takeWhile isDotChar)))
  | _ => none

/-- Search for a regex of the shape `pat(.*?)(?:\n|$)`: at each start
position the literal must match and the following maximal run of
`.`-matchable characters must end at a `\n` or at the end of the input
(the capture, being built from `.`, cannot absorb a `\r`); on failure the
engine retries at the next start position. -/
def findDotCapAux (pat : Chars) : Nat → Chars → Option Chars
  | 0, _ => none
  | fuel + 1, l =>
    match (if pat.isPrefixOf l then
             match (l.drop pat.length).drop ((l.drop pat.length).takeWhile isDotChar).length with
             | [] => some ((l.drop pat.length).takeWhile isDotChar)
             | '\n' :: _ => some ((l.drop pat.length).takeWhile isDotChar)
             | _ => none
           else none) with
    | some cap => some cap
    | none =>
      match l with
      | [] => none
      | _ :: cs => findDotCapAux pat fuel cs

def findDotCap (pat l : Chars) : Option Chars :=
  findDotCapAux pat (l.length + 1) l

/-- `block.match(/Best model: (.*?)(?:\n|$)/)` followed by
`.replace("Regressor", "").trim()`. -/
def matchModel (b : Chars) : Option String :=
  (findDotCap "Best model: ".data b).map (fun cap =>
    String.mk (jsTrim (replaceFirstSeq "Regressor".data [] cap)))

/-- `block.match(/R2: ([\d.]+)/)` followed by `Number.parseFloat`. -/
def matchR2 (b : Chars) : Option JsNum :=
  (findCap "R2: ".data isDigitDot b).map parseFloatDigits

/-- `block.match(/RMSE: ([\d.]+)/)` followed by `Number.parseFloat`. -/
def matchRMSE (b : Chars) : Option JsNum :=
  (findCap "RMSE: ".data isDigitDot b).map parseFloatDigits

/-- Truthiness of a possibly-`undefined` number
(`if (metrics.rmseScores[target])`). -/
def truthyOpt : Option JsNum → Bool
  | none => false
  | some n => n.truthy

/-- The square of a rational, computed on the normal form via `mkRat` so
that it evaluates by kernel reduction; `ratSq_eq` below identifies it
with `q * q`. -/
def ratSq (q : ℚ) : ℚ := mkRat (q.num * q.num) (q.den * q.den)

/-- `Math.pow(x, 2)` on a map read that is guarded to be defined. -/
def jsSquare : Option JsNum → JsNum
  | none => .nan
  | some .nan => .nan
  | some (.inf _) => .inf false
  | some (.val q) => .val (ratSq q)

/-- The body of `targetBlocks.slice(1).forEach((block) => ...)` in
`extractModelMetrics`. -/
def processBlock (m : ModelMetrics) (b : Chars) : ModelMetrics :=
  match blockTarget b with
  | none => m
  | some target =>
    let m1 := match matchModel b with
      | some v => { m with bestModels := setKey target v m.bestModels }
      | none => m
    let m2 := match matchR2 b with
      | some v => { m1 with r2Scores := setKey target v m1.r2Scores }
      | none => m1
    let m3 := match matchRMSE b with
      | some v => { m2 with rmseScores := setKey target v m2.rmseScores }
      | none => m2
    if truthyOpt (getKey target m3.rmseScores) then
      { m3 with mseScores := setKey target (jsSquare (getKey target m3.rmseScores)) m3.mseScores }
    else m3

/-- `matchAll(/Selected (\d+) features for (.*?)\n/g)`: every
non-overlapping match, scanning left to right; each match yields the
greedy digit capture and the lazy `.`-capture (which the caller trims),
which must be terminated by a literal `\n` — a `\r` before the newline
makes the attempt fail, since `.` does not match it — and scanning
resumes after the matched newline. -/
def scanFeatAux : Nat → Chars → List (Nat × String)
  | 0, _ => []
  | fuel + 1, l =>
    let withDigits := (fun (afterSel : Chars) =>
      let ds := afterSel.takeWhile Char.isDigit
      let afterDs := afterSel.drop ds.length
      if ds != [] && " features for ".data.isPrefixOf afterDs then
        let afterFor := afterDs.drop " features for ".data.length
        let cap := afterFor.takeWhile isDotChar
        match afterFor.drop cap.length with
        | '\n' :: afterNl => some ((digitsToNat ds, String.mk (jsTrim cap)), afterNl)
        | _ => none
      else none)
    match (if "Selected ".data.isPrefixOf l then
             withDigits (l.drop "Selected ".data.length)
           else none) with
    | some (hit, rest) => hit :: scanFeatAux fuel rest
    | none =>
      match l with
      | [] => []
      | _ :: cs => scanFeatAux fuel cs

def scanFeatures (l : Chars) : List (Nat × String) :=
  scanFeatAux (l.length + 1) l

/-- ``Array(n).fill(0).map((_, i) => `Feature ${i + 1}`)``. -/
def featureNames (n : Nat) : List String :=
  (List.range n).map (fun i => "Feature " ++ toString (i + 1))

/-- The `for (const match of featureSelectionMatches)` loop:
`Array(Number.parseInt(match[1]))` throws a `RangeError` when the parsed
count is not a valid array length (`≥ 2^32`), aborting the extractor
(`none`); otherwise the placeholder feature names are recorded and the
loop continues. -/
def foldFeatures : List (Nat × String) → ModelMetrics → Option ModelMetrics
  | [], m => some m
  | p :: rest, m =>
    if p.1 < 2 ^ 32 then
      foldFeatures rest { m with bestFeatures := setKey p.2 (featureNames p.1) m.bestFeatures }
    else none

/-- `extractModelMetrics` from `route.ts`: fold the per-target summary
blocks into the five metric maps, then record placeholder feature names
from every `Selected <n> features for <target>` line in the whole output;
`none` models the uncaught `RangeError` thrown by `Array(n)` when some
matched feature count is `≥ 2^32`. -/
def extractModelMetrics (output : String) : Option ModelMetrics :=
  foldFeatures (scanFeatures output.data)
    ((summaryBlocks output.data).foldl processBlock emptyMetrics)

/-- The externally observable behaviour of one `spawn("python", ...)`
invocation: either the process closed with an exit code after emitting the
given stdout/stderr, or spawning itself failed. -/
inductive ProcEvent where
  | close (code : Int) (stdout stderr : String) : ProcEvent
  | spawnFail (msg : String) : ProcEvent
deriving DecidableEq, Repr

/-- `runPythonModel` from `route.ts`: resolves with the buffered stdout on
exit code `0`; rejects with a message embedding the exit code and the
buffered stderr on any other exit code; rejects with a spawn-error message
when the process could not be started. -/
def runPythonModel : ProcEvent → Except String String
  | .close code stdout stderr =>
    if code ≠ 0 then
      .error ("Python process failed with code " ++ toString code ++ ": " ++ stderr)
    else .ok stdout
  | .spawnFail msg => .error ("Failed to start Python process: " ++ msg)

/-- The JSON body (plus HTTP status) produced by the `POST` handler:
absent JSON fields are `none`. -/
structure ApiResponse where
  status : Nat
  success : Bool
  error : Option String
  modelOutput : Option String
  predictions : Option (List Row)
  metrics : Option ModelMetrics
deriving DecidableEq, Repr

/-- The `POST` handler of `route.ts`, with each external effect supplied
as an argument: whether the form carried a file, the Python process event,
and the content of `soil_analysis_output/soil_predictions.csv` (`none`
when reading it fails).  A rejection of `runPythonModel` — like the
`RangeError` the metrics extractor can throw — propagates to the outer
`try`/`catch`, which answers with a bare `Internal server error`. -/
def POST (fileProvided : Bool) (proc : ProcEvent) (predictionsFile : Option String) :
    ApiResponse :=
  if !fileProvided then ⟨400, false, some "No file provided", none, none, none⟩
  else
    match runPythonModel proc with
    | .error _ => ⟨500, false, some "Internal server error", none, none, none⟩
    | .ok modelOutput =>
      match predictionsFile with
      | none =>
        ⟨500, false, some "Failed to read model predictions", some modelOutput, none, none⟩
      | some predictionsData =>
        match extractModelMetrics modelOutput with
        | none => ⟨500, false, some "Internal server error", none, none, none⟩
        | some metrics =>
          ⟨200, true, none, some modelOutput, some (parseCSV predictionsData), some metrics⟩

/-- JavaScript truthiness of a row value. -/
def CellValue.truthy : CellValue → Bool
  | .str s => s ≠ ""
  | .num n => n.truthy
  | .undef => false

/-- Truthiness of a possibly-absent object property. -/
def truthyCell : Option CellValue → Bool
  | none => false
  | some v => v.truthy

/-- `row[param] !== undefined`. -/
def definedCell : Option CellValue → Bool
  | none => false
  | some .undef => false
  | some _ => true

/-- The six target parameters of `simulateModelAnalysis`. -/
def targetParams : List String :=
  ["Ph", "Moist", "EC (u/10 gram)", "Nitro (mg/10 g)", "Posh Nitro (mg/10 g)",
   "Pota Nitro (mg/10 g)"]

/-- `row.Soil_ID || row.Records || `Sample_${Math.floor(Math.random() * 1000)}``,
returning the value together with the next random-draw index. -/
def computeSoilId (rnd : ℕ → ℚ) (row : Row) (k : ℕ) : CellValue × ℕ :=
  if truthyCell (getKey "Soil_ID" row) then ((getKey "Soil_ID" row).getD .undef, k)
  else if truthyCell (getKey "Records" row) then ((getKey "Records" row).getD .undef, k)
  else (.str ("Sample_" ++ toString ⌊rnd k * 1000⌋), k + 1)

/-- `if (typeof soilId === "string" && soilId.includes("-")) soilId = soilId.split("-")[0]`. -/
def soilIdAdjust (v : CellValue) : CellValue :=
  match v with
  | .str s =>
    if s.data.any (· == '-') then .str (String.mk ((s.data.splitOn '-').headD []))
    else .str s
  | other => other

/-- The first pass of `simulateModelAnalysis` (`const soilIds = data.map(...)`). -/
def computeSoilIds (rnd : ℕ → ℚ) : List Row → ℕ → List CellValue × ℕ
  | [], k => ([], k)
  | row :: rest, k =>
    let p := computeSoilId rnd row k
    let ps := computeSoilIds rnd rest p.2
    (soilIdAdjust p.1 :: ps.1, ps.2)

/-- The `else if (row.Moisture_Level) ... else levels[index % levels.length]`
part of the moisture-level selection. -/
def moistureFallback (row : Row) (idx : ℕ) : CellValue :=
  if truthyCell (getKey "Moisture_Level" row) then (getKey "Moisture_Level" row).getD .undef
  else .str (["0ml", "25ml", "50ml"].getD (idx % 3) "")

/-- The full moisture-level selection of `simulateModelAnalysis`: an
underscore-bearing string soil id yields its part after the first
underscore (or the initial `"0ml"` when the split is degenerate);
otherwise the fallback chain applies. -/
def moistureOf (row : Row) (idx : ℕ) (soilId : CellValue) : CellValue :=
  match soilId with
  | .str s =>
    if s.data.any (· == '_') then
      let parts := s.data.splitOn '_'
      if parts.length > 1 then .str (String.mk (parts.getD 1 [])) else .str "0ml"
    else moistureFallback row idx
  | _ => moistureFallback row idx

/-- The `switch (param)` of `simulateModelAnalysis` generating a simulated
value from one random draw `r`; `none` for a parameter outside the six
cases (in which case the source assigns nothing and draws nothing). -/
def synthParam (param : String) (ml : CellValue) (r : ℚ) : Option ℚ :=
  if param = "Ph" then some (6.5 + (r * 1.5 - 0.75))
  else if param = "Moist" then
    some ((if ml = .str "0ml" then 15 else if ml = .str "25ml" then 35 else 55) + (r * 10 - 5))
  else if param = "EC (u/10 gram)" then some (800 + (r * 400 - 200))
  else if param = "Nitro (mg/10 g)" then some (18 + (r * 10 - 5))
  else if param = "Posh Nitro (mg/10 g)" then some (12 + (r * 8 - 4))
  else if param = "Pota Nitro (mg/10 g)" then some (25 + (r * 15 - 7.5))
  else none

/-- One synthesizing assignment `prediction[param] = <baseline + random>`,
consuming one draw when the switch has a case for `param`. -/
def synthStep (rnd : ℕ → ℚ) (ml : CellValue) (st : Row × ℕ) (param : String) : Row × ℕ :=
  match synthParam param ml (rnd st.2) with
  | some q => (setKey param (.num (.val q)) st.1, st.2 + 1)
  | none => st

/-- One iteration of `targetParams.forEach((param) => ...)`: copy the
row's value when defined, otherwise synthesize. -/
def addParam (rnd : ℕ → ℚ) (row : Row) (ml : CellValue) (st : Row × ℕ) (param : String) :
    Row × ℕ :=
  if definedCell (getKey param row) then
    (setKey param ((getKey param row).getD .undef) st.1, st.2)
  else synthStep rnd ml st param

/-- The prediction record built for one row of the upload. -/
def buildPrediction (rnd : ℕ → ℚ) (row : Row) (idx : ℕ) (soilId : CellValue) (k : ℕ) :
    Row × ℕ :=
  let ml := moistureOf row idx soilId
  targetParams.foldl (addParam rnd row ml) ([("Soil_ID", soilId), ("Moisture_Level", ml)], k)

/-- The second pass of `simulateModelAnalysis` (`data.map((row, index) => ...)`),
threading the row index and the random-draw counter. -/
def buildPredictionsAux (rnd : ℕ → ℚ) : List (Row × CellValue) → ℕ → ℕ → List Row
  | [], _, _ => []
  | (row, sid) :: rest, idx, k =>
    let p := buildPrediction rnd row idx sid k
    p.1 :: buildPredictionsAux rnd rest (idx + 1) p.2

/-- The `predictions` component of `simulateModelAnalysis` from the
client library in `route.ts` (its `metrics` component is a hard-coded
constant and its `modelOutput` a derived display string; neither affects
the prediction records). -/
def simulateModelAnalysis (data : List Row) (rnd : ℕ → ℚ) : List Row :=
  let p := computeSoilIds rnd data 0
  buildPredictionsAux rnd (data.zip p.1) 0 p.2

/-- The coverage ratio of `simulateSinglePrediction`:
`Object.keys(spectralData).filter((key) => !isNaN(Number(key))).length / 18`. -/
def qualityScore (spectralData : List (String × CellValue)) : ℚ :=
  (((spectralData.map Prod.fst).filter (fun k => jsToNumber k.data != JsNum.nan)).length : ℚ) / 18

/-- `simulateSinglePrediction` from the client library in `route.ts`: six
baseline-plus-coverage-plus-noise target values, one random draw each in
field order. -/
def simulateSinglePrediction (spectralData : List (String × CellValue)) (rnd : ℕ → ℚ) :
    Row :=
  let qs := qualityScore spectralData
  [("Soil_ID", .str "Sample_1"),
   ("Ph", .num (.val (6.5 + qs * 0.5 + (rnd 0 * 0.5 - 0.25)))),
   ("Moist", .num (.val (35 + qs * 10 + (rnd 1 * 10 - 5)))),
   ("EC (u/10 gram)", .num (.val (800 + qs * 200 + (rnd 2 * 200 - 100)))),
   ("Nitro (mg/10 g)", .num (.val (18 + qs * 5 + (rnd 3 * 5 - 2.5)))),
   ("Posh Nitro (mg/10 g)", .num (.val (12 + qs * 4 + (rnd 4 * 4 - 2)))),
   ("Pota Nitro (mg/10 g)", .num (.val (25 + qs * 7.5 + (rnd 5 * 7.5 - 3.75))))]

/-- Left-pad the decimal digits of `m` with zeros to width `k`. -/
def padDigits (k : ℕ) (m : ℕ) : String :=
  String.mk (List.replicate (k - (toString m).length) '0') ++ toString m

/-- Decimal rendering of a rational whose denominator divides a power of
ten (every finite value produced by this codebase's string-to-number
coercions is of that shape), mirroring JavaScript `String(number)` on
such values; other rationals have no JavaScript counterpart and render as
`"~"`. -/
def ratToDecimal (q : ℚ) : String :=
  match (List.range 65).find? (fun k => q.den ∣ 10 ^ k) with
  | some k =>
    let m := q.num.natAbs * (10 ^ k) / q.den
    let whole := m / 10 ^ k
    let frac := m % 10 ^ k
    (if q < 0 then "-" else "") ++ toString whole ++
      (if k = 0 then "" else "." ++ padDigits k frac)
  | none => "~"

/-- JavaScript string coercion of a number. -/
def jsNumToString : JsNum → String
  | .nan => "NaN"
  | .inf b => if b then "-Infinity" else "Infinity"
  | .val q => ratToDecimal q

/-- JavaScript string coercion of a row value. -/
def cellToString : CellValue → String
  | .str s => s
  | .num n => jsNumToString n
  | .undef => "undefined"

/-- Re-serialize one row in the given column order (comma-joined string
coercions of the cells). -/
def serializeRow (headers : List String) (row : Row) : Chars :=
  List.intercalate [','] (headers.map (fun h => (cellToString ((getKey h row).getD .undef)).data))

/-- Re-serialize a parsed row set with the given column order: the header
line, then one comma-joined line per row. -/
def serializeRows (headers : List String) (rows : List Row) : String :=
  String.mk (List.intercalate ['\n']
    (List.intercalate [','] (headers.map String.data) :: rows.map (serializeRow headers)))

theorem getKey_setKey_self {α : Type} (k : String) (v : α) (l : List (String × α)) :
    getKey k (setKey k v l) = some v := by
  induction l with
  | nil => simp [setKey, getKey]
  | cons p rest ih =>
    obtain ⟨a, b⟩ := p
    simp only [setKey]
    by_cases h2 : a = k
    · rw [if_pos h2]
      simp only [getKey]
      rw [if_pos h2]
    · rw [if_neg h2]
      simp only [getKey]
      rw [if_neg h2]
      exact ih

theorem getKey_setKey_ne {α : Type} (k k' : String) (v : α) (l : List (String × α))
    (h : k' ≠ k) : getKey k (setKey k' v l) = getKey k l := by
  induction l with
  | nil =>
    simp only [setKey, getKey]
    rw [if_neg h]
  | cons p rest ih =>
    obtain ⟨a, b⟩ := p
    simp only [setKey]
    by_cases h2 : a = k'
    · rw [if_pos h2]
      subst h2
      simp only [getKey]
      rw [if_neg h, if_neg h]
    · rw [if_neg h2]
      simp only [getKey]
      by_cases h3 : a = k
      · rw [if_pos h3, if_pos h3]
      · rw [if_neg h3, if_neg h3]
        exact ih

theorem mem_enumFrom_snd {α : Type} {l : List α} {n : ℕ} {p : ℕ × α}
    (h : p ∈ l.enumFrom n) : p.2 ∈ l := by
  induction l generalizing n with
  | nil => simp [List.enumFrom] at h
  | cons a t ih =>
    rw [List.enumFrom_cons] at h
    rcases List.mem_cons.mp h with h | h
    · simp [h]
    · exact List.mem_cons_of_mem _ (ih h)

theorem getKey_parseFold_of_forall_ne (values : List String) (l : List (ℕ × String))
    (r : Row) (k : String) (h : ∀ p ∈ l, p.2 ≠ k) :
    getKey k (l.foldl (fun row p => setKey p.2 (coerceCell values[p.1]?) row) r) =
      getKey k r := by
  induction l generalizing r with
  | nil => rfl
  | cons p rest ih =>
    rw [List.foldl_cons, ih _ (fun q hq => h q (List.mem_cons_of_mem _ hq))]
    exact getKey_setKey_ne _ _ _ _ (h p (List.mem_cons_self _ _))

theorem parseFold_getKey (values : List String) (headers : List String) (j : ℕ) (r : Row)
    (hnd : headers.Nodup) (i : ℕ) (hi : i < headers.length) :
    getKey (headers.get ⟨i, hi⟩)
      ((headers.enumFrom j).foldl (fun row p => setKey p.2 (coerceCell values[p.1]?) row) r) =
      some (coerceCell values[j + i]?) := by
  induction headers generalizing j r i with
  | nil => exact absurd hi (by simp)
  | cons h hs ih =>
    rw [List.enumFrom_cons, List.foldl_cons]
    cases i with
    | zero =>
      have hnotin : h ∉ hs := (List.nodup_cons.mp hnd).1
      have hpres : ∀ p ∈ hs.enumFrom (j + 1), p.2 ≠ h :=
        fun p hp hh => hnotin (hh ▸ mem_enumFrom_snd hp)
      exact (getKey_parseFold_of_forall_ne values _ _ _ hpres).trans
        (getKey_setKey_self _ _ _)
    | succ i2 =>
      have hi2 : i2 < hs.length := Nat.lt_of_succ_lt_succ hi
      have heq := ih (j + 1) (setKey h (coerceCell values[j]?) r)
        (List.nodup_cons.mp hnd).2 i2 hi2
      rw [show j + (i2 + 1) = (j + 1) + i2 from by omega]
      exact heq

/-- The result of `headers.forEach` in `parseCSV`, looked up at the `i`-th
header: exactly the coerced `i`-th cell (duplicate-free headers). -/
theorem parseRow_getKey (headers values : List String) (hnd : headers.Nodup)
    (i : ℕ) (hi : i < headers.length) :
    getKey (headers.get ⟨i, hi⟩) (parseRow headers values) =
      some (coerceCell values[i]?) := by
  have := parseFold_getKey values headers 0 [] hnd i hi
  simpa [parseRow, List.enum_eq_enumFrom] using this

/-- The raw text of cell `(j, i)` of the CSV input: `i`-th comma-separated
field of the `j`-th data line, `none` when absent. -/
def csvCell (csvData : String) (j i : ℕ) : Option String :=
  (((csvDataCells csvData)[j]?).getD [])[i]?

/-- C10: `parseCSV` is total; the trimmed input always splits into at
least one line (so `lines[0]` is never an out-of-bounds access), and the
empty string and whitespace-only strings parse to the empty row list.
Totality itself is by construction: `parseCSV` is a Lean function. -/
theorem parseCSV_total (csvData : String) :
    csvLines csvData ≠ [] ∧ parseCSV "" = [] ∧ parseCSV "   " = [] ∧
      parseCSV " \n\t " = [] := by
  refine ⟨?_, rfl, rfl, rfl⟩
  simp only [csvLines, List.splitOn]
  exact List.splitOnP_ne_nil _ _

/-- C2 fails as stated: in `parseCSV "ID,Moist\nA1,"` the second cell of
the data row is the empty string, whose trimmed text is not a numeric
literal, yet the cell is converted to the number `0` rather than being
preserved verbatim as a string (JavaScript `Number("") === 0`). -/
theorem parseCSV_empty_cell_counterexample :
    parseCSV "ID,Moist\nA1," =
      [[("ID", CellValue.str "A1"), ("Moist", CellValue.num (JsNum.val 0))]] ∧
      CellValue.num (JsNum.val 0) ≠ CellValue.str "" := by
  exact ⟨rfl, by decide⟩

/-- C2 (amended): every cell of every row produced by `parseCSV` (with
duplicate-free headers) is `coerceCell` of the raw cell text: a present
cell is converted to a number exactly when JavaScript `Number` on it is
not `NaN` — i.e. its trimmed text is empty (yielding `0`) or fully
matches a numeric literal — and is otherwise kept verbatim as a string;
an absent cell (data row shorter than the header) is bound to
`undefined`. -/
theorem parseCSV_cell_coercion (csvData : String) (hnd : (csvHeaders csvData).Nodup)
    (j i : ℕ) (k : String) (row : Row)
    (hk : (csvHeaders csvData)[i]? = some k)
    (hrow : (parseCSV csvData)[j]? = some row) :
    getKey k row = some (coerceCell (csvCell csvData j i)) := by
  have hj : j < (csvDataCells csvData).length := by
    by_contra hlt
    rw [List.getElem?_eq_none (by simpa [parseCSV] using Nat.le_of_not_lt hlt)] at hrow
    exact Option.noConfusion hrow
  have hi : i < (csvHeaders csvData).length :=
    (List.getElem?_eq_some.mp hk).1
  have hkk : (csvHeaders csvData).get ⟨i, hi⟩ = k := by
    have := (List.getElem?_eq_some.mp hk).2
    simpa using this
  have hrw : row = parseRow (csvHeaders csvData) ((csvDataCells csvData).get ⟨j, hj⟩) := by
    have : (parseCSV csvData)[j]? =
        some (parseRow (csvHeaders csvData) ((csvDataCells csvData).get ⟨j, hj⟩)) := by
      simp [parseCSV, List.getElem?_eq_getElem, hj]
    rw [this] at hrow
    exact (Option.some.injEq _ _ ▸ hrow).symm
  have hcell : csvCell csvData j i = ((csvDataCells csvData).get ⟨j, hj⟩)[i]? := by
    simp [csvCell, List.getElem?_eq_getElem, hj]
  rw [hrw, ← hkk, parseRow_getKey _ _ hnd i hi, hcell]

/-- C2 witness: the spec's own example row, with the numeric cell `3.5`
coerced and the text cells preserved. -/
theorem parseCSV_cell_coercion_witness :
    getKey "Moist"
      [("ID", CellValue.str "A1"), ("Moist", CellValue.num (JsNum.val (mkRat 7 2))),
        ("Label", CellValue.str "dry")] =
      some (coerceCell (csvCell "ID,Moist,Label\nA1,3.5,dry" 0 1)) :=
  parseCSV_cell_coercion "ID,Moist,Label\nA1,3.5,dry" (by decide) 0 1 "Moist" _
    (by decide) (by decide)

/-- C1 fails as stated: when the process exits with code `1` and stderr
`"boom"`, the response delivered to the upload caller is the generic
catch-all `Internal server error` JSON — no field of it contains the
captured stderr text. -/
theorem processFailure_response_counterexample :
    POST true (.close 1 "" "boom") none =
      ⟨500, false, some "Internal server error", none, none, none⟩ ∧
      ¬ ("boom".data <:+: "Internal server error".data) := by
  exact ⟨rfl, by decide⟩

/-- C1 (amended): for every nonzero exit code and any stderr content, the
rejection raised by `runPythonModel` carries the captured stderr verbatim
(as a suffix of the rejection message), but the `POST` handler's
`try`/`catch` collapses that rejection into a generic
`Internal server error` response that carries neither the stderr nor any
process output. -/
theorem processFailure_propagation (code : Int) (hc : code ≠ 0)
    (stdout stderr : String) (predFile : Option String) :
    (∃ msg, runPythonModel (.close code stdout stderr) = .error msg ∧
      stderr.data <:+ msg.data) ∧
      (POST true (.close code stdout stderr) predFile).error =
        some "Internal server error" ∧
      (POST true (.close code stdout stderr) predFile).modelOutput = none := by
  refine ⟨⟨"Python process failed with code " ++ toString code ++ ": " ++ stderr, ?_, ?_⟩,
    ?_, ?_⟩
  · simp [runPythonModel, hc]
  · simp only [String.data_append]
    exact List.suffix_append _ _
  · simp [POST, runPythonModel, hc]
  · simp [POST, runPythonModel, hc]

/-- C1 witness: exit code `1` with stderr `"boom"`. -/
theorem processFailure_propagation_witness :
    (∃ msg, runPythonModel (.close 1 "out" "boom") = .error msg ∧
      "boom".data <:+ msg.data) ∧
      (POST true (.close 1 "out" "boom") none).error = some "Internal server error" ∧
      (POST true (.close 1 "out" "boom") none).modelOutput = none :=
  processFailure_propagation 1 (by decide) "out" "boom" none

/-- C5: when the process exits with code `0` but the predictions file
cannot be read, the response is the distinct
`Failed to read model predictions` error that still carries the captured
stdout, and it differs from the response produced by any nonzero-exit
(`ProcessFailure`) run. -/
theorem resultMissing_response (stdout stderr : String) (code : Int) (hc : code ≠ 0)
    (s2 e2 : String) (predFile : Option String) :
    (POST true (.close 0 stdout stderr) none).error =
      some "Failed to read model predictions" ∧
      (POST true (.close 0 stdout stderr) none).modelOutput = some stdout ∧
      (POST true (.close 0 stdout stderr) none).status = 500 ∧
      POST true (.close 0 stdout stderr) none ≠ POST true (.close code s2 e2) predFile := by
  refine ⟨by simp [POST, runPythonModel], by simp [POST, runPythonModel],
    by simp [POST, runPythonModel], ?_⟩
  intro h
  have herr := congrArg ApiResponse.error h
  simp [POST, runPythonModel, hc] at herr

/-- C5 witness: successful exit with stdout `"out"` and a missing
predictions file, compared against a run with exit code `1`. -/
theorem resultMissing_response_witness :
    (POST true (.close 0 "out" "") none).error =
      some "Failed to read model predictions" ∧
      (POST true (.close 0 "out" "") none).modelOutput = some "out" ∧
      (POST true (.close 0 "out" "") none).status = 500 ∧
      POST true (.close 0 "out" "") none ≠ POST true (.close 1 "" "err") none :=
  resultMissing_response "out" "" 1 (by decide) "" "err" none

theorem ratSq_eq (q : ℚ) : ratSq q = q * q := by
  rw [ratSq, Rat.mkRat_eq_divInt]
  push_cast
  rw [← Rat.divInt_mul_divInt' q.num (q.den : ℤ) q.num (q.den : ℤ), Rat.num_divInt_den]

/-- The invariant linking the RMSE and MSE maps through the block fold: a
nonzero finite RMSE entry always has its square recorded as MSE. -/
def MseInv (m : ModelMetrics) : Prop :=
  ∀ t q, getKey t m.rmseScores = some (.val q) → q ≠ 0 →
    getKey t m.mseScores = some (.val (ratSq q))

theorem processBlock_rmse_mse (m : ModelMetrics) (b : Chars) :
    ((processBlock m b).rmseScores, (processBlock m b).mseScores) =
      match blockTarget b with
      | none => (m.rmseScores, m.mseScores)
      | some u =>
        let r2 := match matchRMSE b with
          | some v => setKey u v m.rmseScores
          | none => m.rmseScores
        if truthyOpt (getKey u r2) then
          (r2, setKey u (jsSquare (getKey u r2)) m.mseScores)
        else (r2, m.mseScores) := by
  cases hbt : blockTarget b <;> cases hbm : matchModel b <;> cases hr2 : matchR2 b <;>
      cases hrm : matchRMSE b <;> simp [processBlock, hbt, hbm, hr2, hrm] <;> split <;> rfl

theorem mseInv_processBlock (m : ModelMetrics) (b : Chars) (hm : MseInv m) :
    MseInv (processBlock m b) := by
  intro t q hq hq0
  have hch := processBlock_rmse_mse m b
  cases hbt : blockTarget b with
  | none =>
    rw [hbt] at hch
    have h1 := congrArg Prod.fst hch
    have h2 := congrArg Prod.snd hch
    dsimp only at h1 h2
    rw [h1] at hq
    rw [h2]
    exact hm t q hq hq0
  | some u =>
    rw [hbt] at hch
    cases hrm : matchRMSE b with
    | none =>
      rw [hrm] at hch
      dsimp only at hch
      split at hch
      · have h1 := congrArg Prod.fst hch
        have h2 := congrArg Prod.snd hch
        dsimp only at h1 h2
        rw [h1] at hq
        rw [h2]
        by_cases htu : u = t
        · subst htu
          rw [getKey_setKey_self]
          rw [hq]
          rfl
        · rw [getKey_setKey_ne _ _ _ _ htu]
          exact hm t q hq hq0
      · have h1 := congrArg Prod.fst hch
        have h2 := congrArg Prod.snd hch
        dsimp only at h1 h2
        rw [h1] at hq
        rw [h2]
        exact hm t q hq hq0
    | some v =>
      rw [hrm] at hch
      dsimp only at hch
      split at hch
      · have h1 := congrArg Prod.fst hch
        have h2 := congrArg Prod.snd hch
        dsimp only at h1 h2
        rw [h1] at hq
        rw [h2]
        by_cases htu : u = t
        · subst htu
          rw [getKey_setKey_self] at hq
          have hv := Option.some.inj hq
          rw [getKey_setKey_self, getKey_setKey_self, hv]
          rfl
        · rw [getKey_setKey_ne _ _ _ _ htu] at hq
          rw [getKey_setKey_ne _ _ _ _ htu]
          exact hm t q hq hq0
      · next hfalse =>
        have h1 := congrArg Prod.fst hch
        have h2 := congrArg Prod.snd hch
        dsimp only at h1 h2
        rw [h1] at hq
        rw [h2]
        by_cases htu : u = t
        · subst htu
          rw [getKey_setKey_self] at hq
          have hv := Option.some.inj hq
          rw [getKey_setKey_self, hv] at hfalse
          exact absurd (by simp [truthyOpt, JsNum.truthy, hq0]) hfalse
        · rw [getKey_setKey_ne _ _ _ _ htu] at hq
          exact hm t q hq hq0


theorem mseInv_foldl (bs : List Chars) (m : ModelMetrics) (hm : MseInv m) :
    MseInv (bs.foldl processBlock m) := by
  induction bs generalizing m with
  | nil => exact hm
  | cons b rest ih => exact ih _ (mseInv_processBlock _ _ hm)

theorem foldFeatures_preserve (l : List (Nat × String)) (m0 m : ModelMetrics)
    (h : foldFeatures l m0 = some m) :
    m.r2Scores = m0.r2Scores ∧ m.rmseScores = m0.rmseScores ∧
      m.mseScores = m0.mseScores ∧ m.bestModels = m0.bestModels := by
  induction l generalizing m0 with
  | nil =>
    simp only [foldFeatures] at h
    cases h
    exact ⟨rfl, rfl, rfl, rfl⟩
  | cons p rest ih =>
    simp only [foldFeatures] at h
    split at h
    · exact ih { m0 with bestFeatures := setKey p.2 (featureNames p.1) m0.bestFeatures } h
    · exact absurd h (by simp)

theorem foldFeatures_some (l : List (Nat × String)) (m0 : ModelMetrics)
    (h : ∀ p ∈ l, p.1 < 2 ^ 32) : ∃ m, foldFeatures l m0 = some m := by
  induction l generalizing m0 with
  | nil => exact ⟨m0, rfl⟩
  | cons p rest ih =>
    simp only [foldFeatures]
    rw [if_pos (h p (List.mem_cons_self _ _))]
    exact ih _ (fun q hq => h q (List.mem_cons_of_mem _ hq))

/-- C3 fails as stated: a summary block whose `RMSE:` line matches the
value `0.0` stores `0` in `rmseScores`, but `if (metrics.rmseScores[target])`
is falsy at `0`, so the target is absent from `mseScores` even though its
RMSE matched. -/
theorem extract_mse_zero_counterexample :
    ∃ m, extractModelMetrics "=== Final Summary ===\nTarget: Ph\nRMSE: 0.0\n" = some m ∧
      getKey "Ph" m.rmseScores = some (JsNum.val 0) ∧
      getKey "Ph" m.mseScores = none := by
  refine ⟨ModelMetrics.mk [] [("Ph", JsNum.val 0)] [] [] [], by decide, by decide, by decide⟩

/-- C3 (amended): whenever the extractor returns a metrics record (its
only failure mode is the `RangeError` thrown by `Array(n)` for a matched
feature count `≥ 2^32`), every target whose final RMSE entry is a nonzero
finite value has its square recorded in `mseScores`; when the matched
RMSE value is `0` the truthiness guard skips the MSE assignment and the
target is absent from `mseScores` (see the counterexample). -/
theorem extract_mse_eq_rmse_sq (output : String) (m : ModelMetrics) (t : String) (q : ℚ)
    (hm : extractModelMetrics output = some m)
    (hq : getKey t m.rmseScores = some (JsNum.val q))
    (hq0 : q ≠ 0) :
    getKey t m.mseScores = some (JsNum.val (q * q)) := by
  unfold extractModelMetrics at hm
  have hpres := foldFeatures_preserve _ _ _ hm
  have hinv : MseInv ((summaryBlocks output.data).foldl processBlock emptyMetrics) := by
    refine mseInv_foldl _ _ ?_
    intro t2 q2 h _
    simp [emptyMetrics, getKey] at h
  rw [hpres.2.1] at hq
  rw [hpres.2.2.1]
  have hres := hinv t q hq hq0
  rw [ratSq_eq] at hres
  exact hres

/-- C3 witness: the exemplar summary text with `RMSE: 0.420`. -/
theorem extract_mse_eq_rmse_sq_witness :
    getKey "Ph"
        (ModelMetrics.mk [("Ph", JsNum.val (mkRat 87 100))] [("Ph", JsNum.val (mkRat 21 50))]
          [("Ph", JsNum.val (mkRat 441 2500))] [("Ph", "Random Forest")] []).mseScores =
      some (JsNum.val (mkRat 420 1000 * mkRat 420 1000)) :=
  extract_mse_eq_rmse_sq
    "=== Final Summary ===\nTarget: Ph\nBest model: Random Forest Regressor\nR2: 0.870\nRMSE: 0.420\n"
    (ModelMetrics.mk [("Ph", JsNum.val (mkRat 87 100))] [("Ph", JsNum.val (mkRat 21 50))]
      [("Ph", JsNum.val (mkRat 441 2500))] [("Ph", "Random Forest")] [])
    "Ph" (mkRat 420 1000) (by decide) (by decide) (by decide)

/-- C6 fails as universally stated: this text contains the four required
lines inside its `=== Final Summary ===` block, yet a second
`Target: Ph` block later in the same summary overwrites the RMSE with
`0.9` (and the MSE with `0.81`), so the extractor does not yield
`rmseScores.Ph = 0.42`. -/
theorem extract_example_counterexample :
    ("Target: Ph\nBest model: Random Forest Regressor\nR2: 0.870\nRMSE: 0.420\n").data <:+:
        ((finalSummaryText
          "=== Final Summary ===\nTarget: Ph\nBest model: Random Forest Regressor\nR2: 0.870\nRMSE: 0.420\n\nTarget: Ph\nRMSE: 0.9\n".data).getD []) ∧
      ∃ m, extractModelMetrics
          "=== Final Summary ===\nTarget: Ph\nBest model: Random Forest Regressor\nR2: 0.870\nRMSE: 0.420\n\nTarget: Ph\nRMSE: 0.9\n" =
          some m ∧
        getKey "Ph" m.rmseScores = some (JsNum.val (mkRat 9 10)) ∧
        some (JsNum.val (mkRat 9 10)) ≠ some (JsNum.val (mkRat 42 100)) ∧
        getKey "Ph" m.mseScores = some (JsNum.val (mkRat 81 100)) := by
  refine ⟨by decide,
    ModelMetrics.mk [("Ph", JsNum.val (mkRat 87 100))] [("Ph", JsNum.val (mkRat 9 10))]
      [("Ph", JsNum.val (mkRat 81 100))] [("Ph", "Random Forest")] [],
    by decide, by decide, by decide, by decide⟩

/-- C6 (amended): for the exemplar input whose final-summary block
consists of exactly the four lines `Target: Ph`,
`Best model: Random Forest Regressor`, `R2: 0.870`, `RMSE: 0.420`,
`extractModelMetrics` returns a metrics record with
`bestModels.Ph = "Random Forest"`, `r2Scores.Ph = 0.87`,
`rmseScores.Ph = 0.42` and `mseScores.Ph = 0.1764` (exactly, in the
rational model). -/
theorem extract_example_metrics :
    ∃ m, extractModelMetrics
        "=== Final Summary ===\nTarget: Ph\nBest model: Random Forest Regressor\nR2: 0.870\nRMSE: 0.420\n" =
        some m ∧
      getKey "Ph" m.bestModels = some "Random Forest" ∧
      getKey "Ph" m.r2Scores = some (JsNum.val (mkRat 87 100)) ∧
      getKey "Ph" m.rmseScores = some (JsNum.val (mkRat 42 100)) ∧
      getKey "Ph" m.mseScores = some (JsNum.val (mkRat 1764 10000)) := by
  refine ⟨ModelMetrics.mk [("Ph", JsNum.val (mkRat 87 100))] [("Ph", JsNum.val (mkRat 21 50))]
      [("Ph", JsNum.val (mkRat 441 2500))] [("Ph", "Random Forest")] [],
    by decide, by decide, by decide, by decide, by decide⟩

theorem processBlock_r2_char (m : ModelMetrics) (b : Chars) :
    (processBlock m b).r2Scores =
      match blockTarget b with
      | none => m.r2Scores
      | some u =>
        match matchR2 b with
        | some v => setKey u v m.r2Scores
        | none => m.r2Scores := by
  cases hbt : blockTarget b <;> cases hbm : matchModel b <;> cases hr2 : matchR2 b <;>
      cases hrm : matchRMSE b <;> simp [processBlock, hbt, hbm, hr2, hrm] <;> split <;> rfl

theorem processBlock_models_char (m : ModelMetrics) (b : Chars) :
    (processBlock m b).bestModels =
      match blockTarget b with
      | none => m.bestModels
      | some u =>
        match matchModel b with
        | some v => setKey u v m.bestModels
        | none => m.bestModels := by
  cases hbt : blockTarget b <;> cases hbm : matchModel b <;> cases hr2 : matchR2 b <;>
      cases hrm : matchRMSE b <;> simp [processBlock, hbt, hbm, hr2, hrm] <;> split <;> rfl

theorem foldl_r2_none (bs : List Chars) (m : ModelMetrics) (t : String)
    (hm : getKey t m.r2Scores = none)
    (hb : ∀ b ∈ bs, blockTarget b = some t → matchR2 b = none) :
    getKey t (bs.foldl processBlock m).r2Scores = none := by
  induction bs generalizing m with
  | nil => exact hm
  | cons b rest ih =>
    rw [List.foldl_cons]
    refine ih _ ?_ (fun b2 h2 => hb b2 (List.mem_cons_of_mem _ h2))
    rw [processBlock_r2_char]
    cases hbt : blockTarget b with
    | none => exact hm
    | some u =>
      cases hr2 : matchR2 b with
      | none => exact hm
      | some v =>
        have hut : u ≠ t := by
          intro he
          subst he
          have := hb b (List.mem_cons_self _ _) hbt
          rw [this] at hr2
          exact Option.noConfusion hr2
        rw [getKey_setKey_ne _ _ _ _ hut]
        exact hm

theorem processBlock_models_hit (m : ModelMetrics) (b : Chars) (t v : String)
    (hbt : blockTarget b = some t) (hbm : matchModel b = some v) :
    getKey t (processBlock m b).bestModels = some v := by
  rw [processBlock_models_char, hbt, hbm]
  exact getKey_setKey_self _ _ _

theorem foldl_models_preserve (bs : List Chars) (m : ModelMetrics) (t v : String)
    (hm : getKey t m.bestModels = some v)
    (hb : ∀ b ∈ bs, blockTarget b ≠ some t) :
    getKey t (bs.foldl processBlock m).bestModels = some v := by
  induction bs generalizing m with
  | nil => exact hm
  | cons b rest ih =>
    rw [List.foldl_cons]
    refine ih _ ?_ (fun b2 h2 => hb b2 (List.mem_cons_of_mem _ h2))
    rw [processBlock_models_char]
    cases hbt : blockTarget b with
    | none => exact hm
    | some u =>
      have hut : u ≠ t := fun he => hb b (List.mem_cons_self _ _) (he ▸ hbt)
      cases hbm : matchModel b with
      | none => exact hm
      | some w =>
        rw [getKey_setKey_ne _ _ _ _ hut]
        exact hm

/-- C4 fails as stated: `extractModelMetrics` does not always return a
metrics record — on an output containing
`Selected 4294967296 features for X`, `Array(4294967296)` throws a
`RangeError` (`4294967296 = 2^32` is not a valid array length), so the
extractor aborts and delivers nothing. -/
theorem extract_throws_counterexample :
    extractModelMetrics "Selected 4294967296 features for X\n" = none := by decide

/-- C4 (amended): the extractor returns a metrics record for every input
whose matched `Selected <n>` feature counts are all valid array lengths
(`< 2^32`) — the `RangeError` thrown by `Array(n)` is its only failure
mode — and whenever it returns, a target with a unique summary block
lacking an `R2:` match but carrying a matched `Best model:` line is
absent from `r2Scores` yet present in `bestModels` with the matched
model name: a missing field causes silent omission from its own mapping
only. -/
theorem extract_missing_r2_tolerance :
    (∀ output : String, (∀ p ∈ scanFeatures output.data, p.1 < 2 ^ 32) →
        ∃ m, extractModelMetrics output = some m) ∧
      (∀ (output : String) (m : ModelMetrics) (t v : String) (l1 l2 : List Chars) (b : Chars),
        extractModelMetrics output = some m →
        summaryBlocks output.data = l1 ++ b :: l2 →
        blockTarget b = some t →
        matchModel b = some v →
        (∀ b2 ∈ summaryBlocks output.data, blockTarget b2 = some t → matchR2 b2 = none) →
        (∀ b2 ∈ l2, blockTarget b2 ≠ some t) →
        getKey t m.r2Scores = none ∧ getKey t m.bestModels = some v) := by
  constructor
  · intro output h
    unfold extractModelMetrics
    exact foldFeatures_some _ _ h
  · intro output m t v l1 l2 b hm hsplit hbt hbm hr2 hl2
    unfold extractModelMetrics at hm
    have hpres := foldFeatures_preserve _ _ _ hm
    constructor
    · rw [hpres.1]
      exact foldl_r2_none _ _ _ rfl hr2
    · rw [hpres.2.2.2, hsplit, List.foldl_append, List.foldl_cons]
      exact foldl_models_preserve l2 _ t v (processBlock_models_hit _ _ _ _ hbt hbm) hl2

/-- C4 witness: a summary block for `Ph` with a `Best model:` line but no
`R2:` line (and no feature-count lines, so the extractor returns). -/
theorem extract_missing_r2_tolerance_witness :
    (∃ m, extractModelMetrics
        "=== Final Summary ===\nTarget: Ph\nBest model: Random Forest Regressor\nRMSE: 0.420\n" =
        some m) ∧
      (getKey "Ph"
          (ModelMetrics.mk [] [("Ph", JsNum.val (mkRat 21 50))]
            [("Ph", JsNum.val (mkRat 441 2500))] [("Ph", "Random Forest")] []).r2Scores =
        none ∧
        getKey "Ph"
          (ModelMetrics.mk [] [("Ph", JsNum.val (mkRat 21 50))]
            [("Ph", JsNum.val (mkRat 441 2500))] [("Ph", "Random Forest")] []).bestModels =
        some "Random Forest") :=
  ⟨extract_missing_r2_tolerance.1
      "=== Final Summary ===\nTarget: Ph\nBest model: Random Forest Regressor\nRMSE: 0.420\n"
      (by decide),
    extract_missing_r2_tolerance.2
      "=== Final Summary ===\nTarget: Ph\nBest model: Random Forest Regressor\nRMSE: 0.420\n"
      (ModelMetrics.mk [] [("Ph", JsNum.val (mkRat 21 50))]
        [("Ph", JsNum.val (mkRat 441 2500))] [("Ph", "Random Forest")] [])
      "Ph" "Random Forest" [] []
      (" Ph\nBest model: Random Forest Regressor\nRMSE: 0.420\n").data
      (by decide) (by decide) (by decide) (by decide) (by decide) (by decide)⟩

/-- C8: an empty spectral mapping yields coverage ratio `0`, and for any
random stream with draws in `[0, 1)` each of the six predicted target
values is its fixed baseline plus only the bounded random term, lying in
the claimed interval. -/
theorem singlePrediction_empty_bounds (rnd : ℕ → ℚ) (h : ∀ i, 0 ≤ rnd i ∧ rnd i < 1) :
    qualityScore [] = 0 ∧
      (∃ q, getKey "Ph" (simulateSinglePrediction [] rnd) =
          some (.num (.val q)) ∧ (6.25 : ℚ) ≤ q ∧ q ≤ 6.75) ∧
      (∃ q, getKey "Moist" (simulateSinglePrediction [] rnd) =
          some (.num (.val q)) ∧ (30 : ℚ) ≤ q ∧ q ≤ 40) ∧
      (∃ q, getKey "EC (u/10 gram)" (simulateSinglePrediction [] rnd) =
          some (.num (.val q)) ∧ (700 : ℚ) ≤ q ∧ q ≤ 900) ∧
      (∃ q, getKey "Nitro (mg/10 g)" (simulateSinglePrediction [] rnd) =
          some (.num (.val q)) ∧ (15.5 : ℚ) ≤ q ∧ q ≤ 20.5) ∧
      (∃ q, getKey "Posh Nitro (mg/10 g)" (simulateSinglePrediction [] rnd) =
          some (.num (.val q)) ∧ (10 : ℚ) ≤ q ∧ q ≤ 14) ∧
      (∃ q, getKey "Pota Nitro (mg/10 g)" (simulateSinglePrediction [] rnd) =
          some (.num (.val q)) ∧ (21.25 : ℚ) ≤ q ∧ q ≤ 28.75) := by
  have hq0 : qualityScore ([] : List (String × CellValue)) = 0 := by
    simp [qualityScore]
  refine ⟨hq0, ⟨_, rfl, ?_, ?_⟩, ⟨_, rfl, ?_, ?_⟩, ⟨_, rfl, ?_, ?_⟩, ⟨_, rfl, ?_, ?_⟩,
    ⟨_, rfl, ?_, ?_⟩, ⟨_, rfl, ?_, ?_⟩⟩ <;>
    rw [hq0]
  · linarith [(h 0).1, (h 0).2]
  · linarith [(h 0).1, (h 0).2]
  · linarith [(h 1).1, (h 1).2]
  · linarith [(h 1).1, (h 1).2]
  · linarith [(h 2).1, (h 2).2]
  · linarith [(h 2).1, (h 2).2]
  · linarith [(h 3).1, (h 3).2]
  · linarith [(h 3).1, (h 3).2]
  · linarith [(h 4).1, (h 4).2]
  · linarith [(h 4).1, (h 4).2]
  · linarith [(h 5).1, (h 5).2]
  · linarith [(h 5).1, (h 5).2]

/-- C8 witness: the constant stream drawing `1/2` everywhere. -/
theorem singlePrediction_empty_bounds_witness :
    qualityScore [] = 0 ∧
      (∃ q, getKey "Ph" (simulateSinglePrediction [] (fun _ => (1 : ℚ) / 2)) =
          some (.num (.val q)) ∧ (6.25 : ℚ) ≤ q ∧ q ≤ 6.75) ∧
      (∃ q, getKey "Moist" (simulateSinglePrediction [] (fun _ => (1 : ℚ) / 2)) =
          some (.num (.val q)) ∧ (30 : ℚ) ≤ q ∧ q ≤ 40) ∧
      (∃ q, getKey "EC (u/10 gram)" (simulateSinglePrediction [] (fun _ => (1 : ℚ) / 2)) =
          some (.num (.val q)) ∧ (700 : ℚ) ≤ q ∧ q ≤ 900) ∧
      (∃ q, getKey "Nitro (mg/10 g)" (simulateSinglePrediction [] (fun _ => (1 : ℚ) / 2)) =
          some (.num (.val q)) ∧ (15.5 : ℚ) ≤ q ∧ q ≤ 20.5) ∧
      (∃ q, getKey "Posh Nitro (mg/10 g)" (simulateSinglePrediction [] (fun _ => (1 : ℚ) / 2)) =
          some (.num (.val q)) ∧ (10 : ℚ) ≤ q ∧ q ≤ 14) ∧
      (∃ q, getKey "Pota Nitro (mg/10 g)" (simulateSinglePrediction [] (fun _ => (1 : ℚ) / 2)) =
          some (.num (.val q)) ∧ (21.25 : ℚ) ≤ q ∧ q ≤ 28.75) :=
  singlePrediction_empty_bounds (fun _ => (1 : ℚ) / 2) (fun _ => by norm_num)

theorem synthParam_mem (param : String) (hp : param ∈ targetParams) (ml : CellValue)
    (r : ℚ) : ∃ q, synthParam param ml r = some q := by
  simp only [targetParams, List.mem_cons, List.not_mem_nil, or_false] at hp
  rcases hp with h | h | h | h | h | h <;> subst h <;> exact ⟨_, rfl⟩

theorem addParam_self (rnd : ℕ → ℚ) (row : Row) (ml : CellValue) (st : Row × ℕ)
    (param : String) (hp : param ∈ targetParams) :
    ∃ v, getKey param (addParam rnd row ml st param).1 = some v ∧ v ≠ CellValue.undef := by
  unfold addParam
  by_cases hd : definedCell (getKey param row)
  · rw [if_pos hd]
    refine ⟨(getKey param row).getD .undef, getKey_setKey_self _ _ _, ?_⟩
    cases hg : getKey param row with
    | none => rw [hg] at hd; exact absurd hd (by simp [definedCell])
    | some v =>
      cases v with
      | undef => rw [hg] at hd; exact absurd hd (by simp [definedCell])
      | str s => simp
      | num n => simp
  · rw [if_neg hd]
    unfold synthStep
    obtain ⟨q, hq⟩ := synthParam_mem param hp ml (rnd st.2)
    rw [hq]
    exact ⟨.num (.val q), getKey_setKey_self _ _ _, by simp⟩

theorem addParam_other (rnd : ℕ → ℚ) (row : Row) (ml : CellValue) (st : Row × ℕ)
    (param q' : String) (hne : param ≠ q') :
    getKey param (addParam rnd row ml st q').1 = getKey param st.1 := by
  unfold addParam
  by_cases hd : definedCell (getKey q' row)
  · rw [if_pos hd]
    exact getKey_setKey_ne _ _ _ _ (Ne.symm hne)
  · rw [if_neg hd]
    unfold synthStep
    cases hs : synthParam q' ml (rnd st.2) with
    | none => rfl
    | some q => exact getKey_setKey_ne _ _ _ _ (Ne.symm hne)

theorem foldl_addParam_defined (rnd : ℕ → ℚ) (row : Row) (ml : CellValue)
    (ps : List String) (hsub : ∀ p ∈ ps, p ∈ targetParams) (st : Row × ℕ) (param : String)
    (hmem : param ∈ ps ∨ ∃ v, getKey param st.1 = some v ∧ v ≠ CellValue.undef) :
    ∃ v, getKey param (ps.foldl (addParam rnd row ml) st).1 = some v ∧
      v ≠ CellValue.undef := by
  induction ps generalizing st with
  | nil =>
    rcases hmem with h | h
    · exact absurd h (List.not_mem_nil _)
    · exact h
  | cons p rest ih =>
    rw [List.foldl_cons]
    have hsub2 : ∀ x ∈ rest, x ∈ targetParams :=
      fun x hx => hsub x (List.mem_cons_of_mem _ hx)
    by_cases hpp : param = p
    · subst hpp
      exact ih hsub2 _ (Or.inr (addParam_self rnd row ml st param
        (hsub param (List.mem_cons_self _ _))))
    · rcases hmem with h | h
      · rcases List.mem_cons.mp h with he | hrest
        · exact absurd he hpp
        · exact ih hsub2 _ (Or.inl hrest)
      · refine ih hsub2 _ (Or.inr ?_)
        obtain ⟨v, hv1, hv2⟩ := h
        exact ⟨v, by rw [addParam_other rnd row ml st param p hpp]; exact hv1, hv2⟩

theorem buildPrediction_fields (rnd : ℕ → ℚ) (row : Row) (idx : ℕ) (sid : CellValue)
    (k : ℕ) (param : String) (hp : param ∈ targetParams) :
    ∃ v, getKey param (buildPrediction rnd row idx sid k).1 = some v ∧
      v ≠ CellValue.undef := by
  unfold buildPrediction
  exact foldl_addParam_defined rnd row _ targetParams (fun _ h => h) _ param (Or.inl hp)

theorem mem_buildPredictionsAux (rnd : ℕ → ℚ) (l : List (Row × CellValue)) (idx k : ℕ)
    (p : Row) (hp : p ∈ buildPredictionsAux rnd l idx k) :
    ∃ row sid idx2 k2, p = (buildPrediction rnd row idx2 sid k2).1 := by
  induction l generalizing idx k with
  | nil => exact absurd hp (by simp [buildPredictionsAux])
  | cons a rest ih =>
    obtain ⟨row, sid⟩ := a
    simp only [buildPredictionsAux] at hp
    rcases List.mem_cons.mp hp with he | hr
    · exact ⟨row, sid, idx, k, he⟩
    · exact ih _ _ hr

/-- C7: every prediction record produced by `simulateModelAnalysis`
carries all six target fields with a non-`undefined` value — copied from
the input row when defined there and synthesized otherwise. -/
theorem simulate_predictions_all_targets (data : List Row) (rnd : ℕ → ℚ) (p : Row)
    (hp : p ∈ simulateModelAnalysis data rnd) (param : String)
    (hparam : param ∈ targetParams) :
    ∃ v, getKey param p = some v ∧ v ≠ CellValue.undef := by
  unfold simulateModelAnalysis at hp
  obtain ⟨row, sid, idx2, k2, he⟩ := mem_buildPredictionsAux rnd _ 0 _ p hp
  subst he
  exact buildPrediction_fields rnd row idx2 sid k2 param hparam

/-- C7 witness: a one-row upload whose row already defines `Soil_ID` and
all six targets; the prediction record copies them. -/
theorem simulate_predictions_all_targets_witness :
    ∃ v, getKey "Ph"
        [("Soil_ID", CellValue.str "S1"), ("Moisture_Level", CellValue.str "0ml"),
          ("Ph", CellValue.str "a"), ("Moist", CellValue.str "b"),
          ("EC (u/10 gram)", CellValue.str "c"), ("Nitro (mg/10 g)", CellValue.str "d"),
          ("Posh Nitro (mg/10 g)", CellValue.str "e"),
          ("Pota Nitro (mg/10 g)", CellValue.str "f")] = some v ∧ v ≠ CellValue.undef :=
  simulate_predictions_all_targets
    [[("Soil_ID", CellValue.str "S1"), ("Ph", CellValue.str "a"),
      ("Moist", CellValue.str "b"), ("EC (u/10 gram)", CellValue.str "c"),
      ("Nitro (mg/10 g)", CellValue.str "d"), ("Posh Nitro (mg/10 g)", CellValue.str "e"),
      ("Pota Nitro (mg/10 g)", CellValue.str "f")]]
    (fun _ => (1 : ℚ) / 2)
    [("Soil_ID", CellValue.str "S1"), ("Moisture_Level", CellValue.str "0ml"),
      ("Ph", CellValue.str "a"), ("Moist", CellValue.str "b"),
      ("EC (u/10 gram)", CellValue.str "c"), ("Nitro (mg/10 g)", CellValue.str "d"),
      ("Posh Nitro (mg/10 g)", CellValue.str "e"),
      ("Pota Nitro (mg/10 g)", CellValue.str "f")]
    (by decide) "Ph" (by decide)

theorem csvLines_ne_nil (csvData : String) : csvLines csvData ≠ [] := by
  simp only [csvLines, List.splitOn]
  exact List.splitOnP_ne_nil _ _

theorem map_data_map_mk (l : List Chars) :
    (l.map (fun c => String.mk c)).map String.data = l := by
  rw [List.map_map]
  have hid : (String.data ∘ fun c => String.mk c) = id := rfl
  rw [hid]
  exact List.map_id l

theorem serializeRow_parseRow (headers : List String) (cells : List String)
    (hnd : headers.Nodup) (hlen : cells.length = headers.length)
    (hcell : ∀ c ∈ cells, jsToNumber c.data = JsNum.nan) :
    serializeRow headers (parseRow headers cells) =
      List.intercalate [','] (cells.map String.data) := by
  unfold serializeRow
  congr 1
  apply List.ext_get
  · simp [hlen]
  · intro n h1 h2
    have hn : n < headers.length := by simpa using h1
    have hcn : n < cells.length := by omega
    simp only [List.get_map]
    rw [parseRow_getKey headers cells hnd n hn]
    rw [List.getElem?_eq_getElem hcn]
    have hnan : jsToNumber (cells[n]).data = JsNum.nan :=
      hcell (cells[n]) (List.getElem_mem hcn)
    simp [coerceCell, hnan, cellToString]

/-- C9 fails as stated: the input `"A,B\nx,"` has only comma-safe cells
(no embedded commas or quotes), yet its empty second cell is coerced to
the number `0`, so re-serializing the parsed rows with the same column
order yields `"A,B\nx,0"`, not the original text. -/
theorem roundTrip_counterexample :
    serializeRows (csvHeaders "A,B\nx,") (parseCSV "A,B\nx,") = "A,B\nx,0" ∧
      ("A,B\nx,0" : String) ≠ "A,B\nx," := by
  constructor
  · decide
  · decide

/-- C9 (amended): parsing then re-serializing with the header's column
order reproduces the text exactly for every CSV text that is equal to its
own trim, has duplicate-free headers, has every data row with exactly as
many fields as the header, and whose data cells are all non-numeric under
JavaScript `Number` (numeric-looking cells — including empty cells, which
coerce to `0` — are reformatted by the coercion and break the
round-trip, as the counterexample shows). -/
theorem parseCSV_roundTrip (csvData : String)
    (htrim : jsTrim csvData.data = csvData.data)
    (hnd : (csvHeaders csvData).Nodup)
    (hlen : ∀ cells ∈ csvDataCells csvData,
      cells.length = (csvHeaders csvData).length)
    (hcell : ∀ cells ∈ csvDataCells csvData, ∀ c ∈ cells,
      jsToNumber c.data = JsNum.nan) :
    serializeRows (csvHeaders csvData) (parseCSV csvData) = csvData := by
  cases hL : csvLines csvData with
  | nil => exact absurd hL (csvLines_ne_nil csvData)
  | cons hd tl =>
    have hheads : csvHeaders csvData = (hd.splitOn ',').map (fun c => String.mk c) := by
      simp [csvHeaders, hL]
    have hcellsL : csvDataCells csvData =
        tl.map (fun l => (l.splitOn ',').map (fun c => String.mk c)) := by
      simp [csvDataCells, hL]
    have hhead : List.intercalate [','] ((csvHeaders csvData).map String.data) = hd := by
      rw [hheads, map_data_map_mk]
      exact List.intercalate_splitOn hd ','
    have hrows : (parseCSV csvData).map (serializeRow (csvHeaders csvData)) = tl := by
      unfold parseCSV
      rw [List.map_map, hcellsL, List.map_map]
      conv_rhs => rw [← List.map_id tl]
      apply List.map_congr_left
      intro line hline
      have hc : ((line.splitOn ',').map (fun c => String.mk c)) ∈ csvDataCells csvData := by
        rw [hcellsL]
        exact List.mem_map_of_mem _ hline
      have hlen2 := hlen _ hc
      have hcell2 := hcell _ hc
      show serializeRow (csvHeaders csvData)
        (parseRow (csvHeaders csvData) ((line.splitOn ',').map (fun c => String.mk c))) = _
      rw [serializeRow_parseRow _ _ hnd hlen2 hcell2, map_data_map_mk]
      exact List.intercalate_splitOn line ','
    unfold serializeRows
    rw [hhead, hrows]
    have hjoin : List.intercalate ['\n'] (hd :: tl) = csvData.data := by
      rw [← hL]
      simp only [csvLines]
      rw [List.intercalate_splitOn, htrim]
    rw [hjoin]

/-- C9 witness: a two-row CSV with only non-numeric cells round-trips. -/
theorem parseCSV_roundTrip_witness :
    serializeRows (csvHeaders "ID,Lab\na,b\nc,d") (parseCSV "ID,Lab\na,b\nc,d") =
      "ID,Lab\na,b\nc,d" :=
  parseCSV_roundTrip "ID,Lab\na,b\nc,d" (by decide) (by decide) (by decide) (by decide)
